import Mathlib

/-!
Verification development for the TrustBridge financial-trust platform
(src/trustbridge_app.py).  The file embeds the three logic-bearing
components of the source — the trust-score engine, the in-memory
user/transaction store, and the receipt amount extractor — as executable
Lean definitions, and proves the specified properties about them.
-/

set_option maxRecDepth 4000

namespace TrustBridge

/-! ## Data model

A transaction record, as built in `add_transaction_form` (lines 816-824).
The Python dict stores a `datetime` in the `date` field; we model it as a
number of seconds since the epoch.  `strftime('%Y-%m-%d')` — truncation of
a datetime to its calendar date (line 101) — is modelled as division by
86400 (seconds per day): two timestamps denote the same calendar date iff
they fall in the same day bucket.  The `type` field holds the literal
strings "Income" / "Expense" exactly as in the source.  The `description`
and `extracted_text` fields never influence scoring, filtering or sorting
and are omitted. -/

structure Transaction where
  date : Nat
  type : String
  amount : ℚ
  category : String
  verified : Bool
deriving DecidableEq, Repr

/-- Calendar-date bucket of a transaction: model of
`t['date'].strftime('%Y-%m-%d')` on line 101. -/
def dateKey (t : Transaction) : Nat := t.date / 86400

/-! ## Score engine (`calculate_trust_score`, lines 71-126)

The Python function receives an email and reads that user's transaction
list from the store (the fetched `user_data` is never used).  We embed the
score computation as a function of the transaction list; the store-level
wrapper appears further below with the state model. -/

/-- Model of `verified_count = sum(1 for t in transactions if t.get('verified', False))`
(line 92). -/
def verified_count (transactions : List Transaction) : Nat :=
  (transactions.filter (fun t => t.verified)).length

/-- Model of the `transaction_dates` set built on lines 99-102: the set of
distinct calendar dates with at least one transaction. -/
def transaction_dates (transactions : List Transaction) : Finset Nat :=
  (transactions.map dateKey).toFinset

/-- Model of `consistency_days = len(transaction_dates)` (line 104). -/
def consistency_days (transactions : List Transaction) : Nat :=
  (transaction_dates transactions).card

/-- Model of `total_income = sum(t['amount'] for t in transactions if t['type'] == 'Income')`
(line 112). -/
def total_income (transactions : List Transaction) : ℚ :=
  ((transactions.filter (fun t => t.type = "Income")).map (fun t => t.amount)).sum

/-- Model of `total_expense` (line 113). -/
def total_expense (transactions : List Transaction) : ℚ :=
  ((transactions.filter (fun t => t.type = "Expense")).map (fun t => t.amount)).sum

/-- Model of `recent_income = [t for t in transactions if t['type'] == 'Income']`
(line 119).  Despite the name, the source filters the whole history. -/
def recent_income (transactions : List Transaction) : List Transaction :=
  transactions.filter (fun t => t.type = "Income")

/-- The streak bonus of lines 107-109: +20 once `consistency_days >= 30`. -/
def streak_bonus (transactions : List Transaction) : Nat :=
  if 30 ≤ consistency_days transactions then 20 else 0

/-- The income-over-expense bonus of lines 115-116: +15 if `total_income > total_expense`. -/
def flow_bonus (transactions : List Transaction) : Nat :=
  if total_expense transactions < total_income transactions then 15 else 0

/-- The income-presence bonus of lines 118-121: +10 if any Income transaction exists. -/
def income_presence_bonus (transactions : List Transaction) : Nat :=
  if (recent_income transactions).isEmpty then 0 else 10

/-- The accumulated score of lines 85-121 before the final cap, for a
non-empty ledger: `score = 300`, then the six `score +=` steps in source
order (all addends are non-negative naturals, exactly as the Python value
never drops below 300). -/
def rawScore (transactions : List Transaction) : Nat :=
  300 + verified_count transactions * 5 + transactions.length * 1
      + consistency_days transactions * 2
      + streak_bonus transactions
      + flow_bonus transactions
      + income_presence_bonus transactions

/-- Model of `calculate_trust_score` (lines 71-126) as a function of the
user's transaction list: base score 300, early return on an empty ledger
(lines 88-89), the six accumulation rules, and the final
`score = min(score, 850)` cap (line 124). -/
def calculate_trust_score (transactions : List Transaction) : Nat :=
  if transactions.isEmpty then 300
  else min (rawScore transactions) 850

/-- Model of `get_score_tier` (lines 133-144): returns the tier name, the
display colour and the level label. -/
def get_score_tier (score : Nat) : String × String × String :=
  if 750 ≤ score then ("Excellent", "#4CAF50", "LEVEL 5")
  else if 650 ≤ score then ("Good", "#2196F3", "LEVEL 4")
  else if 500 ≤ score then ("Building", "#FF9800", "LEVEL 3")
  else if 400 ≤ score then ("Fair", "#FFC107", "LEVEL 2")
  else ("Starting", "#9E9E9E", "LEVEL 1")

/-! ## Session-state store (lines 19-69 and 128-131)

The app keeps two process-global dictionaries in `st.session_state`:
`users_db` (email to user record) and `transactions_db` (email to
transaction list).  Python dicts are modelled as association lists looked
up by key; the fields of a user record that never influence the core
(`created_at`, `profile_image`) are omitted. -/

structure UserRec where
  name : String
  email : String
  password : String
  plan : String
  trust_score : Nat
  consistency_days : Nat
deriving DecidableEq, Repr

structure AppState where
  users_db : List (String × UserRec)
  transactions_db : List (String × List Transaction)
deriving DecidableEq, Repr

/-- Assignment `d[k] = v` on a dict that already contains `k`: the entry
for `k` has its value replaced in place. -/
def updateAssoc {α : Type} : List (String × α) → String → α → List (String × α)
  | [], _, _ => []
  | (a, b) :: rest, k, v =>
      if a = k then (a, v) :: updateAssoc rest k v
      else (a, b) :: updateAssoc rest k v

/-- Model of `get_user_transactions` (lines 67-69):
`st.session_state.transactions_db.get(email, [])`. -/
def get_user_transactions (st : AppState) (email : String) : List Transaction :=
  (st.transactions_db.lookup email).getD []

/-- The store-level entry point of `calculate_trust_score` (line 71): it
reads the user's transaction list and folds it with the scoring rules
(the fetched `user_data` on line 83 is never used by the computation). -/
def calculate_trust_score_db (st : AppState) (email : String) : Nat :=
  calculate_trust_score (get_user_transactions st email)

/-- Model of `update_trust_score` (lines 128-131): recompute the score
over the user's full current ledger and store it on the user record.
`users_db[email]` raises `KeyError` when the user does not exist, modelled
by `none`. -/
def update_trust_score (st : AppState) (email : String) : Option AppState :=
  match st.users_db.lookup email with
  | none => none
  | some u =>
      let u' : UserRec := { u with trust_score := calculate_trust_score_db st email }
      some { st with users_db := updateAssoc st.users_db email u' }

/-- Model of `save_transaction` (lines 60-65): create the user's ledger if
missing, insert the transaction at index 0 (most-recent-first), then
trigger the score recomputation side effect. -/
def save_transaction (st : AppState) (email : String)
    (transaction_data : Transaction) : Option AppState :=
  let st1 :=
    if (st.transactions_db.lookup email).isSome then st
    else { st with transactions_db := (email, []) :: st.transactions_db }
  let newLedger := transaction_data :: get_user_transactions st1 email
  let st2 := { st1 with transactions_db := updateAssoc st1.transactions_db email newLedger }
  update_trust_score st2 email

/-! ## Concrete inputs used by the counterexample and witnesses -/

/-- The concrete 30-transaction ledger of scoring scenario 3: thirty
unverified Expense transactions of amount 10.00 on thirty distinct
calendar dates. -/
def thirtyExpenses : List Transaction :=
  (List.range 30).map
    (fun i => { date := i * 86400, type := "Expense", amount := 10,
                category := "Grocery", verified := false })

/-- A single unverified Income transaction of amount 100.00. -/
def cexIncome : Transaction :=
  { date := 0, type := "Income", amount := 100, category := "Salary",
    verified := false }

/-- An unverified Expense of amount 200.00 on the same calendar date as
`cexIncome` (one hour later). -/
def cexExpense : Transaction :=
  { date := 3600, type := "Expense", amount := 200, category := "Rent",
    verified := false }

/-- Witness user record as created by `save_user` (lines 32-47): initial
trust score 300. -/
def uWinit : UserRec :=
  { name := "U", email := "u@x", password := "h", plan := "free",
    trust_score := 300, consistency_days := 0 }

/-- Witness store: one registered user with an empty ledger. -/
def stW : AppState :=
  { users_db := [("u@x", uWinit)], transactions_db := [("u@x", [])] }

/-- Witness transaction: an unverified Expense of amount 10.00. -/
def txW : Transaction :=
  { date := 0, type := "Expense", amount := 10, category := "Grocery",
    verified := false }

/-- The witness user's record after the save: cached score 303
(300 + 1 count + 2 active-day credit). -/
def uW : UserRec :=
  { name := "U", email := "u@x", password := "h", plan := "free",
    trust_score := 303, consistency_days := 0 }

/-- The store after saving `txW` for the witness user. -/
def stWafter : AppState :=
  { users_db := [("u@x", uW)], transactions_db := [("u@x", [txW])] }

/-! ## Transaction listing (`transactions_page`, lines 687-721)

Lines 706-716 filter the user's transaction list by type and verification
status and then sort it: Python's stable `sorted(key=..., reverse=...)`
runs only when the literal `"Amount"` occurs in the selected sort label;
for the two date labels the list is returned as stored.  Python's `in`
substring test and stable sort are modelled below. -/

/-- Substring test `pat in s` on character lists. -/
def hasSubstr (pat : List Char) : List Char → Bool
  | [] => pat.isPrefixOf []
  | c :: t => pat.isPrefixOf (c :: t) || hasSubstr pat t

/-- Python's `needle in haystack` on strings. -/
def strContainsB (haystack needle : String) : Bool :=
  hasSubstr needle.toList haystack.toList

/-- Insertion step of a stable sort with a strict comparison: the new
element goes before the first element strictly greater than it (for the
reversed comparison, strictly smaller), hence after all equal keys —
exactly the stable placement of Python's `sorted`. -/
def pyInsert {α : Type} (lt : α → α → Bool) (x : α) : List α → List α
  | [] => [x]
  | y :: ys => if lt x y then x :: y :: ys else y :: pyInsert lt x ys

/-- Model of `sorted(l, key=key, reverse=reverse)`: the unique stable
sort of `l` by `key` (descending when `reverse`). -/
def pySorted {α : Type} (l : List α) (key : α → ℚ) (reverse : Bool) : List α :=
  l.foldl
    (fun acc x =>
      pyInsert (fun a b => if reverse then decide (key b < key a)
                           else decide (key a < key b)) x acc)
    []

/-- Model of the filter/sort pipeline of `transactions_page`
(lines 706-716): type filter, verification filter, then
`if "Amount" in sort_by: sorted(..., key=amount, reverse="High" in sort_by)`;
no sorting is performed for the date labels. -/
def transactions_query (transactions : List Transaction)
    (filter_type filter_verified sort_by : String) : List Transaction :=
  let filtered := transactions
  let filtered :=
    if filter_type ≠ "All" then filtered.filter (fun t => t.type = filter_type)
    else filtered
  let filtered :=
    if filter_verified = "Verified Only" then filtered.filter (fun t => t.verified)
    else if filter_verified = "Unverified Only" then
      filtered.filter (fun t => !t.verified)
    else filtered
  if strContainsB sort_by "Amount" then
    pySorted filtered (fun t => t.amount) (strContainsB sort_by "High")
  else filtered

/-- A transaction on calendar day 0 (the older one). -/
def txOld : Transaction :=
  { date := 0, type := "Expense", amount := 5, category := "Grocery",
    verified := false }

/-- A transaction on calendar day 5, inserted later, stored at the head. -/
def txNew : Transaction :=
  { date := 5 * 86400, type := "Income", amount := 7, category := "Salary",
    verified := false }

/-! ## Amount extraction (`extract_amount_from_text`, lines 167-184)

The source tries three regular expressions in order with `re.search` and
returns `float(match.group(1).replace(',', ''))` of the first match,
falling through to the next pattern when `float` raises:

  1. `(?:TOTAL|Total|total|AMOUNT|Amount|amount)[\s:]*[₦$£€]?\s*(\d+[,.]?\d*\.?\d+)`
  2. `[₦$£€]\s*(\d+[,.]?\d*\.?\d+)`
  3. `(\d+[,.]?\d*\.?\d+)\s*(?:NGN|USD|GBP|EUR)`

Each pattern is embedded as a continuation-passing matcher over character
lists.  Ordered choice (`orOpt`) takes the first alternative whose whole
continuation succeeds, and the greedy star tries the longest run first —
exactly the leftmost, preference-ordered backtracking of Python's `re`.
Character classes are the ASCII readings of `\d` and `\s` (Python's
Unicode-aware classes agree on all inputs considered here). -/

/-- Class `\d` (ASCII digits). -/
def isDigitB (c : Char) : Bool := c.isDigit

/-- Class `[,.]`. -/
def isSepB (c : Char) : Bool := c == ',' || c == '.'

/-- Class `[.]` from the `\.?` element. -/
def isDotB (c : Char) : Bool := c == '.'

/-- Class `\s` (ASCII whitespace). -/
def isSpaceB (c : Char) : Bool :=
  c == ' ' || c == '\t' || c == '\n' || c == '\r' || c == '\x0b' || c == '\x0c'

/-- Class `[\s:]`. -/
def isSpaceColonB (c : Char) : Bool := isSpaceB c || c == ':'

/-- Class `[₦$£€]`. -/
def isCurrencyB (c : Char) : Bool :=
  c == '₦' || c == '$' || c == '£' || c == '€'

/-- Ordered choice of backtracking alternatives: the second is consulted
only if the first fails. -/
def orOpt {α : Type} (x : Option α) (y : Unit → Option α) : Option α :=
  match x with
  | some a => some a
  | none => y ()

/-- A matcher continuation: receives the unconsumed rest of the input and
produces the captured group of the overall match, if any. -/
abbrev Cont := List Char → Option (List Char)

/-- Single character of a class. -/
def chrM (p : Char → Bool) (k : Cont) : List Char → Option (List Char)
  | [] => none
  | c :: s => if p c then k s else none

/-- Greedy star over a class: prefers consuming as many characters as
possible, backtracking to shorter runs. -/
def starM (p : Char → Bool) (k : Cont) : List Char → Option (List Char)
  | [] => k []
  | c :: s =>
      if p c then orOpt (starM p k s) (fun _ => k (c :: s))
      else k (c :: s)

/-- Greedy option over a class: prefers consuming one character. -/
def optM (p : Char → Bool) (k : Cont) : List Char → Option (List Char)
  | [] => k []
  | c :: s =>
      if p c then orOpt (k s) (fun _ => k (c :: s))
      else k (c :: s)

/-- Greedy plus over a class: one required character, then a greedy star. -/
def plusM (p : Char → Bool) (k : Cont) (s : List Char) : Option (List Char) :=
  chrM p (starM p k) s

/-- Ordered literal alternation, first alternative first. -/
def altM (lits : List (List Char)) (k : Cont) (s : List Char) : Option (List Char) :=
  lits.findSome? (fun lit => if lit.isPrefixOf s then k (s.drop lit.length) else none)

/-- Stage 4 of the numeric group: the final `\d+`. -/
def num4 (k : Cont) : Cont := fun r => plusM isDigitB k r

/-- Stage 3 of the numeric group: `\.?` then stage 4. -/
def num3 (k : Cont) : Cont := fun r => optM isDotB (num4 k) r

/-- Stage 2 of the numeric group: `\d*` then stage 3. -/
def num2 (k : Cont) : Cont := fun r => starM isDigitB (num3 k) r

/-- Stage 1 of the numeric group: `[,.]?` then stage 2. -/
def num1 (k : Cont) : Cont := fun r => optM isSepB (num2 k) r

/-- The captured numeric group `\d+[,.]?\d*\.?\d+`. -/
def numM (k : Cont) : Cont := fun s => plusM isDigitB (num1 k) s

/-- The label alternation of pattern 1, in source order. -/
def p1Labels : List (List Char) :=
  [("TOTAL").toList, ("Total").toList, ("total").toList,
   ("AMOUNT").toList, ("Amount").toList, ("amount").toList]

/-- The currency-code alternation of pattern 3, in source order. -/
def currencyCodes : List (List Char) :=
  [("NGN").toList, ("USD").toList, ("GBP").toList, ("EUR").toList]

/-- Pattern 1 anchored at the start of `s`: label, `[\s:]*`, optional
currency symbol, `\s*`, then the captured numeric group (recovered as the
prefix of the residual input consumed by the group). -/
def p1At (s : List Char) : Option (List Char) :=
  altM p1Labels
    (fun r1 =>
      starM isSpaceColonB
        (fun r2 =>
          optM isCurrencyB
            (fun r3 =>
              starM isSpaceB
                (fun r4 =>
                  numM (fun r5 => some (r4.take (r4.length - r5.length))) r4)
                r3)
            r2)
        r1)
    s

/-- Pattern 2 anchored at the start of `s`: currency symbol, `\s*`, then
the captured numeric group. -/
def p2At (s : List Char) : Option (List Char) :=
  chrM isCurrencyB
    (fun r1 =>
      starM isSpaceB
        (fun r2 => numM (fun r3 => some (r2.take (r2.length - r3.length))) r2)
        r1)
    s

/-- Pattern 3 anchored at the start of `s`: the captured numeric group,
`\s*`, then a currency code. -/
def p3At (s : List Char) : Option (List Char) :=
  numM
    (fun r1 =>
      starM isSpaceB
        (fun r2 => altM currencyCodes (fun _ => some (s.take (s.length - r1.length))) r2)
        r1)
    s

/-- Model of `re.search`: try the pattern at every start position from
the left; the first position that matches wins. -/
def searchM (m : List Char → Option (List Char)) : List Char → Option (List Char)
  | [] => m []
  | c :: s => orOpt (m (c :: s)) (fun _ => searchM m s)

/-- Model of `.replace(',', '')` on the captured group (line 179). -/
def stripCommas (g : List Char) : List Char := g.filter (fun c => c != ',')

/-- Numeric value of a digit string, as `float`/`int` read it. -/
def natOfDigits (ds : List Char) : Nat :=
  ds.foldl (fun n c => n * 10 + (c.toNat - 48)) 0

/-- Helper for the float parser: `ip` is the leading digit run, the
second argument everything after it.  A valid literal is either only the
digit run, or a dot followed by fractional digits with at least one digit
overall; anything else raises `ValueError` in Python, modelled by `none`. -/
def parseFloatAux (ip : List Char) : List Char → Option ℚ
  | [] => if ip.isEmpty then none else some ((natOfDigits ip : ℚ))
  | c :: frac =>
      if c = '.' ∧ frac.all isDigitB ∧ ¬(ip.isEmpty ∧ frac.isEmpty) then
        some ((natOfDigits ip : ℚ) + (natOfDigits frac : ℚ) / (10 : ℚ) ^ frac.length)
      else none

/-- Model of Python's `float()` on the strings a captured group can
produce after comma removal (digits and dots only): an integer part, an
optional dot and fractional digits; anything else — in particular a
second dot — raises `ValueError`, modelled by `none`. -/
def parseFloatChars (s : List Char) : Option ℚ :=
  parseFloatAux (s.takeWhile isDigitB) (s.dropWhile isDigitB)

/-- The `for pattern in patterns` loop of lines 176-184: search each
pattern in order; on a match, strip commas and parse; on a parse failure,
continue with the next pattern; return `None` when nothing matched. -/
def tryPatterns : List (List Char → Option (List Char)) → List Char → Option ℚ
  | [], _ => none
  | m :: ms, s =>
      match searchM m s with
      | some g =>
          match parseFloatChars (stripCommas g) with
          | some q => some q
          | none => tryPatterns ms s
      | none => tryPatterns ms s

/-- Model of `extract_amount_from_text` (lines 167-184). -/
def extract_amount_from_text (text : String) : Option ℚ :=
  tryPatterns [p1At, p2At, p3At] text.toList

/-- Plain decimal rendering of an amount: integer digits, then a dot and
fractional digits when a fractional part is present. -/
def renderDecimal (ip fp : List Char) : List Char :=
  ip ++ (if fp.isEmpty then [] else ('.') :: fp)

/-- The rational value denoted by a plain decimal rendering. -/
def decValue (ip fp : List Char) : ℚ :=
  (natOfDigits ip : ℚ) + (natOfDigits fp : ℚ) / (10 : ℚ) ^ fp.length

end TrustBridge

namespace TrustBridge

/-! ## Basic score lemmas -/

theorem rawScore_ge_300 (transactions : List Transaction) :
    300 ≤ rawScore transactions := by
  unfold rawScore
  omega

theorem score_ge_300 (transactions : List Transaction) :
    300 ≤ calculate_trust_score transactions := by
  unfold calculate_trust_score
  split
  · exact le_refl 300
  · have h := rawScore_ge_300 transactions
    omega

theorem score_le_850 (transactions : List Transaction) :
    calculate_trust_score transactions ≤ 850 := by
  unfold calculate_trust_score
  split
  · omega
  · omega

/-- Claim C1: for every ledger (any list of transactions, including the
empty one) the recomputed trust score is an integer with
300 ≤ score ≤ 850: it starts from base 300, every rule only adds a
non-negative quantity, and the final value is capped at 850. -/
theorem trust_score_bounded (transactions : List Transaction) :
    300 ≤ calculate_trust_score transactions ∧
      calculate_trust_score transactions ≤ 850 :=
  ⟨score_ge_300 transactions, score_le_850 transactions⟩

/-- Claim C2: the empty ledger scores exactly 300, and that score is
classified in tier "Starting" with level label "LEVEL 1". -/
theorem empty_ledger_score_and_tier :
    calculate_trust_score [] = 300 ∧
      get_score_tier (calculate_trust_score []) = ("Starting", "#9E9E9E", "LEVEL 1") := by
  constructor
  · rfl
  · rfl

/-- Claim C5: the ledger of 30 unverified Expense transactions of amount
10.00 on 30 distinct dates scores exactly 410
(300 base + 0 verified + 30 count + 60 active-day credit + 20 streak
bonus + 0 income-over-expense + 0 income-presence). -/
theorem thirty_expenses_score : calculate_trust_score thirtyExpenses = 410 := by
  have hne : thirtyExpenses.isEmpty = false := by decide
  have hv : verified_count thirtyExpenses = 0 := by decide
  have hlen : thirtyExpenses.length = 30 := by decide
  have hdays : consistency_days thirtyExpenses = 30 := by decide
  have hti : total_income thirtyExpenses = 0 := by decide
  have hmap : (thirtyExpenses.filter (fun t => t.type = "Expense")).map
      (fun t => t.amount) = List.replicate 30 (10 : ℚ) := by decide
  have hte : total_expense thirtyExpenses = 300 := by
    unfold total_expense
    rw [hmap]
    simp
    norm_num
  have hstreak : streak_bonus thirtyExpenses = 20 := by
    unfold streak_bonus
    rw [hdays]
    norm_num
  have hflow : flow_bonus thirtyExpenses = 0 := by
    unfold flow_bonus
    rw [hti, hte]
    norm_num
  have hpres : income_presence_bonus thirtyExpenses = 0 := by decide
  unfold calculate_trust_score rawScore
  rw [hne, hv, hlen, hdays, hstreak, hflow, hpres]
  norm_num

/-! ## Monotonicity of the scoring rules under append -/

theorem verified_count_cons_le (t : Transaction) (l : List Transaction) :
    verified_count l ≤ verified_count (t :: l) := by
  unfold verified_count
  rw [List.filter_cons]
  split
  · simp
  · exact le_refl _

theorem consistency_days_cons_le (t : Transaction) (l : List Transaction) :
    consistency_days l ≤ consistency_days (t :: l) := by
  unfold consistency_days transaction_dates
  rw [List.map_cons, List.toFinset_cons]
  exact Finset.card_le_card (Finset.subset_insert _ _)

theorem streak_bonus_cons_le (t : Transaction) (l : List Transaction) :
    streak_bonus l ≤ streak_bonus (t :: l) := by
  have h := consistency_days_cons_le t l
  unfold streak_bonus
  split_ifs with h1 h2 <;> omega

theorem income_presence_cons_le (t : Transaction) (l : List Transaction) :
    income_presence_bonus l ≤ income_presence_bonus (t :: l) := by
  unfold income_presence_bonus recent_income
  cases hE : (List.filter (fun x => decide (x.type = "Income")) l).isEmpty with
  | true => simp [hE]
  | false =>
      have hE' : (List.filter (fun x => decide (x.type = "Income")) (t :: l)).isEmpty
          = false := by
        rw [List.filter_cons]
        split
        · rfl
        · exact hE
      simp [hE, hE']

theorem flow_bonus_le_15 (l : List Transaction) : flow_bonus l ≤ 15 := by
  unfold flow_bonus
  split <;> omega

theorem rawScore_cons_bound (t : Transaction) (l : List Transaction) :
    rawScore l ≤ rawScore (t :: l) + 14 := by
  have h1 := verified_count_cons_le t l
  have h2 := consistency_days_cons_le t l
  have h3 := streak_bonus_cons_le t l
  have h4 := income_presence_cons_le t l
  have h5 := flow_bonus_le_15 l
  have h6 : l.length + 1 = (t :: l).length := by simp
  unfold rawScore
  omega

/-- Claim C3 counterexample: a ledger holding a single Income transaction
of amount 100.00 scores 328, and appending an unverified Expense of
amount 200.00 on the same date drops the score to 314 (the +15
income-over-expense bonus is forfeited while only +1 count credit is
gained), so an append strictly decreases the recomputed score. -/
theorem append_can_decrease_score :
    calculate_trust_score [cexExpense, cexIncome] <
      calculate_trust_score [cexIncome] := by
  have hti1 : total_income [cexIncome] = 100 := by
    simp [total_income, cexIncome]
  have hte1 : total_expense [cexIncome] = 0 := by
    simp [total_expense, cexIncome]
  have hflow1 : flow_bonus [cexIncome] = 15 := by
    unfold flow_bonus
    rw [hti1, hte1]
    norm_num
  have h1 : calculate_trust_score [cexIncome] = 328 := by
    have hv : verified_count [cexIncome] = 0 := by decide
    have hd : consistency_days [cexIncome] = 1 := by decide
    have hs : streak_bonus [cexIncome] = 0 := by decide
    have hp : income_presence_bonus [cexIncome] = 10 := by decide
    unfold calculate_trust_score rawScore
    rw [hv, hd, hs, hflow1, hp]
    norm_num
  have hti2 : total_income [cexExpense, cexIncome] = 100 := by
    simp [total_income, cexExpense, cexIncome]
  have hte2 : total_expense [cexExpense, cexIncome] = 200 := by
    simp [total_expense, cexExpense, cexIncome]
  have hflow2 : flow_bonus [cexExpense, cexIncome] = 0 := by
    unfold flow_bonus
    rw [hti2, hte2]
    norm_num
  have h2 : calculate_trust_score [cexExpense, cexIncome] = 314 := by
    have hv : verified_count [cexExpense, cexIncome] = 0 := by decide
    have hd : consistency_days [cexExpense, cexIncome] = 1 := by decide
    have hs : streak_bonus [cexExpense, cexIncome] = 0 := by decide
    have hp : income_presence_bonus [cexExpense, cexIncome] = 10 := by decide
    unfold calculate_trust_score rawScore
    rw [hv, hd, hs, hflow2, hp]
    norm_num
  omega

/-- Claim C3 as amended: appending a transaction can decrease the
recomputed score only by forfeiting the +15 income-over-expense bonus
while gaining the +1 transaction-count credit; every other rule is
monotone under append, so the score after an append is always at least
the score before the append minus 14. -/
theorem append_score_drop_at_most_14 (l : List Transaction) (t : Transaction) :
    calculate_trust_score l ≤ calculate_trust_score (t :: l) + 14 := by
  cases l with
  | nil =>
      have h := score_ge_300 [t]
      have h0 : calculate_trust_score ([] : List Transaction) = 300 := rfl
      omega
  | cons a as =>
      have hb := rawScore_cons_bound t (a :: as)
      have hne1 : (a :: as).isEmpty = false := rfl
      have hne2 : (t :: a :: as).isEmpty = false := rfl
      unfold calculate_trust_score
      rw [hne1, hne2]
      simp only [Bool.false_eq_true, if_false]
      rw [Nat.min_def, Nat.min_def]
      split_ifs <;> omega

/-! ## Cached-score consistency of the store -/

theorem lookup_updateAssoc {α : Type} (l : List (String × α)) (k : String)
    (v w : α) (h : l.lookup k = some w) :
    (updateAssoc l k v).lookup k = some v := by
  induction l with
  | nil => simp [List.lookup] at h
  | cons p rest ih =>
      obtain ⟨a, b⟩ := p
      by_cases hk : a = k
      · subst hk
        simp [updateAssoc, List.lookup]
      · have hka : (k == a) = false := by
          simp [Ne.symm hk]
        simp only [List.lookup, hka] at h
        simp only [updateAssoc, if_neg hk, List.lookup, hka]
        exact ih h

theorem update_trust_score_spec (st st' : AppState) (email : String)
    (h : update_trust_score st email = some st') :
    st'.transactions_db = st.transactions_db ∧
      ∃ u, st'.users_db.lookup email = some u ∧
        u.trust_score = calculate_trust_score_db st email := by
  unfold update_trust_score at h
  cases hl : st.users_db.lookup email with
  | none => rw [hl] at h; simp at h
  | some w =>
      rw [hl] at h
      simp only [Option.some.injEq] at h
      subst h
      refine ⟨rfl, { w with trust_score := calculate_trust_score_db st email }, ?_, rfl⟩
      exact lookup_updateAssoc st.users_db email _ w hl

theorem get_user_transactions_congr (st1 st2 : AppState) (email : String)
    (h : st1.transactions_db = st2.transactions_db) :
    get_user_transactions st1 email = get_user_transactions st2 email := by
  unfold get_user_transactions
  rw [h]

/-- Claim C4: after every append of a transaction to a user's ledger, the
cached score stored on that user's profile equals the full recomputation
of the score over the entire current ledger. -/
theorem save_transaction_caches_recomputed_score
    (st st' : AppState) (email : String) (tx : Transaction) (u : UserRec)
    (hsave : save_transaction st email tx = some st')
    (hu : st'.users_db.lookup email = some u) :
    u.trust_score = calculate_trust_score (get_user_transactions st' email) := by
  simp only [save_transaction] at hsave
  obtain ⟨htdb, u0, hu0, hts⟩ := update_trust_score_spec _ _ _ hsave
  have huu : u = u0 := by
    have h2 := hu.symm.trans hu0
    simpa using h2
  subst huu
  rw [hts]
  unfold calculate_trust_score_db
  congr 1
  exact (get_user_transactions_congr st' _ email htdb).symm

theorem score_single_expense : calculate_trust_score [txW] = 303 := by
  have hti : total_income [txW] = 0 := by
    simp [total_income, txW]
  have hte : total_expense [txW] = 10 := by
    simp [total_expense, txW]
  have hflow : flow_bonus [txW] = 0 := by
    unfold flow_bonus
    rw [hti, hte]
    norm_num
  have hv : verified_count [txW] = 0 := by decide
  have hd : consistency_days [txW] = 1 := by decide
  have hs : streak_bonus [txW] = 0 := by decide
  have hp : income_presence_bonus [txW] = 0 := by decide
  unfold calculate_trust_score rawScore
  rw [hv, hd, hs, hflow, hp]
  norm_num

/-- Witness for claim C4: saving one concrete transaction into a concrete
one-user store yields a state whose cached score (303) is exactly the
recomputation over the resulting one-element ledger. -/
theorem save_transaction_caches_recomputed_score_witness :
    uW.trust_score = calculate_trust_score (get_user_transactions stWafter ("u@x")) := by
  have hsave : save_transaction stW ("u@x") txW = some stWafter := by
    simp only [save_transaction, update_trust_score, calculate_trust_score_db,
      get_user_transactions, updateAssoc, stW, List.lookup]
    norm_num [score_single_expense, stWafter, uW, uWinit]
  have hu : stWafter.users_db.lookup ("u@x") = some uW := by decide
  exact save_transaction_caches_recomputed_score stW stWafter ("u@x") txW uW hsave hu

/-! ## Character-class facts -/

theorem digit_beq_false (c d : Char) (h : isDigitB c = true)
    (hd : isDigitB d = false) : (c == d) = false := by
  apply beq_eq_false_iff_ne.mpr
  intro e
  subst e
  rw [h] at hd
  simp at hd

theorem digit_isSepB_false (c : Char) (h : isDigitB c = true) : isSepB c = false := by
  unfold isSepB
  rw [digit_beq_false c (',') h (by decide), digit_beq_false c ('.') h (by decide)]
  rfl

theorem digit_isDotB_false (c : Char) (h : isDigitB c = true) : isDotB c = false := by
  unfold isDotB
  rw [digit_beq_false c ('.') h (by decide)]

theorem digit_isSpaceB_false (c : Char) (h : isDigitB c = true) : isSpaceB c = false := by
  unfold isSpaceB
  rw [digit_beq_false c (' ') h (by decide), digit_beq_false c ('\t') h (by decide),
    digit_beq_false c ('\n') h (by decide), digit_beq_false c ('\r') h (by decide),
    digit_beq_false c ('\x0b') h (by decide), digit_beq_false c ('\x0c') h (by decide)]
  rfl

/-! ## Behaviour of the numeric-group matcher on decimal renderings -/

theorem num1_nil (k : Cont) : num1 k [] = none := rfl

theorem num3_nil (k : Cont) : num3 k [] = none := rfl

theorem num3_single (k : Cont) (c : Char) (h : isDigitB c = true) :
    num3 k [c] = k [] := by
  have hdot := digit_isDotB_false c h
  simp [num3, num4, optM, plusM, chrM, starM, hdot, h, orOpt]

theorem num2_single (k : Cont) (c : Char) (h : isDigitB c = true) :
    num2 k [c] = k [] := by
  simp [num2, starM, h, orOpt, num3_nil, num3_single k c h]

theorem num1_single (k : Cont) (c : Char) (h : isDigitB c = true) :
    num1 k [c] = k [] := by
  have hsep := digit_isSepB_false c h
  simp [num1, optM, hsep, num2_single k c h]

theorem starM_append (p : Char → Bool) (K : Cont) (v : List Char) :
    ∀ (t r : List Char), (∀ c ∈ t, p c = true) → starM p K r = some v →
      starM p K (t ++ r) = some v := by
  intro t
  induction t with
  | nil => intro r _ h; simpa using h
  | cons c t' ih =>
      intro r hall h
      have hc : p c = true := hall c (by simp)
      have ht' : ∀ x ∈ t', p x = true := fun x hx => hall x (by simp [hx])
      rw [List.cons_append]
      simp only [starM, hc, if_true]
      rw [ih r ht' h]
      rfl

/-- The preferred match of the numeric group on a pure digit string of at
least two digits consumes the whole string. -/
theorem numM_digits (g : List Char → List Char) (ds : List Char)
    (hds : ∀ c ∈ ds, isDigitB c = true) (hlen : 2 ≤ ds.length) :
    numM (fun r => some (g r)) ds = some (g []) := by
  cases ds with
  | nil => simp at hlen
  | cons d t =>
      have hd : isDigitB d = true := hds d (by simp)
      have ht : ∀ c ∈ t, isDigitB c = true := fun c hc => hds c (by simp [hc])
      have htne : t ≠ [] := by
        intro e
        rw [e] at hlen
        simp at hlen
      have hstep : numM (fun r => some (g r)) (d :: t)
          = starM isDigitB (num1 (fun r => some (g r))) t := by
        simp [numM, plusM, chrM, hd]
      rw [hstep]
      have hsplit := List.dropLast_append_getLast htne
      rw [← hsplit]
      apply starM_append
      · intro c hc
        exact ht c (List.dropLast_subset t hc)
      · have hlst : isDigitB (t.getLast htne) = true := ht _ (List.getLast_mem htne)
        simp [starM, hlst, orOpt, num1_nil, num1_single _ _ hlst]

/-- The preferred match of the numeric group on a rendering with integer
digits, a dot and fractional digits consumes the whole string. -/
theorem numM_point (g : List Char → List Char) (ds1 ds2 : List Char)
    (h1 : ∀ c ∈ ds1, isDigitB c = true) (h2 : ∀ c ∈ ds2, isDigitB c = true)
    (n1 : ds1 ≠ []) (n2 : ds2 ≠ []) :
    numM (fun r => some (g r)) (ds1 ++ ('.') :: ds2) = some (g []) := by
  cases ds1 with
  | nil => exact absurd rfl n1
  | cons d t =>
      have hd : isDigitB d = true := h1 d (by simp)
      have ht : ∀ c ∈ t, isDigitB c = true := fun c hc => h1 c (by simp [hc])
      have hstep : numM (fun r => some (g r)) ((d :: t) ++ ('.') :: ds2)
          = starM isDigitB (num1 (fun r => some (g r))) (t ++ ('.') :: ds2) := by
        simp [numM, plusM, chrM, hd]
      rw [hstep]
      apply starM_append
      · exact ht
      · have hdot : isDigitB ('.') = false := by decide
        have hsep : isSepB ('.') = true := by decide
        have hbase : num2 (fun r => some (g r)) ds2 = some (g []) := by
          simp only [num2]
          have hsplit2 := List.dropLast_append_getLast n2
          rw [← hsplit2]
          apply starM_append
          · intro c hc
            exact h2 c (List.dropLast_subset ds2 hc)
          · have hlst : isDigitB (ds2.getLast n2) = true := h2 _ (List.getLast_mem n2)
            simp [starM, hlst, orOpt, num3_nil, num3_single _ _ hlst]
        simp [starM, hdot, num1, optM, hsep, hbase, orOpt]

/-! ## Pattern 1 on a labelled total, and the search wrapper -/

theorem searchM_of_head (m : List Char → Option (List Char)) (s v : List Char)
    (h : m s = some v) : searchM m s = some v := by
  cases s with
  | nil => simpa [searchM] using h
  | cons c t => simp [searchM, h, orOpt]

theorem p1At_total_dollar (c0 : Char) (rest : List Char)
    (hc0 : isDigitB c0 = true)
    (hmatch : numM (fun r => some ((c0 :: rest).take ((c0 :: rest).length - r.length)))
        (c0 :: rest) = some (c0 :: rest)) :
    p1At (('T') :: ('O') :: ('T') :: ('A') :: ('L') :: (':') :: (' ') :: ('$') :: c0 :: rest)
      = some (c0 :: rest) := by
  have h1 : isSpaceColonB (':') = true := by decide
  have h2 : isSpaceColonB (' ') = true := by decide
  have h3 : isSpaceColonB ('$') = false := by decide
  have h4 : isCurrencyB ('$') = true := by decide
  have h5 : isSpaceB c0 = false := digit_isSpaceB_false c0 hc0
  simp only [List.length_cons] at hmatch
  simp [p1At, altM, p1Labels, List.findSome?, List.isPrefixOf, starM, optM,
    orOpt, h1, h2, h3, h4, h5, hmatch]

/-! ## Evaluation of the float parser -/

theorem takeWhile_all (p : Char → Bool) :
    ∀ l : List Char, (∀ c ∈ l, p c = true) →
      l.takeWhile p = l ∧ l.dropWhile p = [] := by
  intro l
  induction l with
  | nil => intro _; exact ⟨rfl, rfl⟩
  | cons c t ih =>
      intro h
      have hc : p c = true := h c (by simp)
      have ht := ih (fun x hx => h x (by simp [hx]))
      refine ⟨?_, ?_⟩
      · simp [List.takeWhile_cons, hc, ht.1]
      · simp [List.dropWhile_cons, hc, ht.2]

theorem takeWhile_append_stop (p : Char → Bool) (c : Char) (hc : p c = false) :
    ∀ (l r : List Char), (∀ x ∈ l, p x = true) →
      (l ++ c :: r).takeWhile p = l ∧ (l ++ c :: r).dropWhile p = c :: r := by
  intro l
  induction l with
  | nil => intro r _; simp [List.takeWhile_cons, List.dropWhile_cons, hc]
  | cons a t ih =>
      intro r h
      have ha : p a = true := h a (by simp)
      have ht := ih r (fun x hx => h x (by simp [hx]))
      refine ⟨?_, ?_⟩
      · simp [List.takeWhile_cons, ha, ht.1]
      · simp [List.dropWhile_cons, ha, ht.2]

theorem parseFloatChars_int (ip : List Char) (hip : ∀ c ∈ ip, isDigitB c = true)
    (hne : ip ≠ []) : parseFloatChars ip = some ((natOfDigits ip : ℚ)) := by
  obtain ⟨ht, hd⟩ := takeWhile_all isDigitB ip hip
  have hemp : ip.isEmpty = false := by
    cases ip with
    | nil => exact absurd rfl hne
    | cons a t => rfl
  unfold parseFloatChars
  rw [ht, hd]
  simp [parseFloatAux, hemp]

theorem parseFloatChars_point (ip fp : List Char)
    (hip : ∀ c ∈ ip, isDigitB c = true) (hfp : ∀ c ∈ fp, isDigitB c = true)
    (hne : ip ≠ []) :
    parseFloatChars (ip ++ ('.') :: fp)
      = some ((natOfDigits ip : ℚ) + (natOfDigits fp : ℚ) / (10 : ℚ) ^ fp.length) := by
  have hdot : isDigitB ('.') = false := by decide
  obtain ⟨ht, hd⟩ := takeWhile_append_stop isDigitB ('.') hdot ip fp hip
  have hemp : ip.isEmpty = false := by
    cases ip with
    | nil => exact absurd rfl hne
    | cons a t => rfl
  have hall : fp.all isDigitB = true := List.all_eq_true.mpr hfp
  unfold parseFloatChars
  rw [ht, hd]
  simp [parseFloatAux, hemp, hall]

theorem parseFloatAux_nonneg (ip rest : List Char) (q : ℚ)
    (h : parseFloatAux ip rest = some q) : 0 ≤ q := by
  cases rest with
  | nil =>
      simp only [parseFloatAux] at h
      split at h
      · exact absurd h (by simp)
      · simp only [Option.some.injEq] at h
        subst h
        positivity
  | cons c frac =>
      simp only [parseFloatAux] at h
      split at h
      · simp only [Option.some.injEq] at h
        subst h
        positivity
      · exact absurd h (by simp)

theorem parseFloatChars_nonneg (cs : List Char) (q : ℚ)
    (h : parseFloatChars cs = some q) : 0 ≤ q :=
  parseFloatAux_nonneg _ _ q h

theorem stripCommas_of_no_comma (g : List Char)
    (h : ∀ c ∈ g, (c == ',') = false) : stripCommas g = g := by
  unfold stripCommas
  apply List.filter_eq_self.mpr
  intro a ha
  simp [bne, h a ha]

theorem tryPatterns_nonneg :
    ∀ (ms : List (List Char → Option (List Char))) (cs : List Char) (q : ℚ),
      tryPatterns ms cs = some q → 0 ≤ q := by
  intro ms
  induction ms with
  | nil => intro cs q h; simp [tryPatterns] at h
  | cons m ms ih =>
      intro cs q h
      simp only [tryPatterns] at h
      cases hs : searchM m cs with
      | none =>
          simp only [hs] at h
          exact ih cs q h
      | some g =>
          simp only [hs] at h
          cases hp : parseFloatChars (stripCommas g) with
          | none =>
              simp only [hp] at h
              exact ih cs q h
          | some q' =>
              simp only [hp, Option.some.injEq] at h
              subst h
              exact parseFloatChars_nonneg _ _ hp

theorem tryPatterns_first (m : List Char → Option (List Char))
    (ms : List (List Char → Option (List Char))) (s g : List Char) (q : ℚ)
    (hs : searchM m s = some g)
    (hp : parseFloatChars (stripCommas g) = some q) :
    tryPatterns (m :: ms) s = some q := by
  simp only [tryPatterns, hs, hp]

theorem tryPatterns_skip (m : List Char → Option (List Char))
    (ms : List (List Char → Option (List Char))) (s : List Char)
    (hs : searchM m s = none) :
    tryPatterns (m :: ms) s = tryPatterns ms s := by
  simp only [tryPatterns, hs]

/-! ## Claims C6, C7, C8 and C10: the amount extractor -/

/-- Claim C6 counterexample: the amount 5 rendered in the claimed shape
"TOTAL: $" followed by its decimal rendering "5" is NOT extracted — the
numeric group of every pattern requires at least two digits, so the
extractor returns `NotFound` instead of 5. -/
theorem extract_single_digit_none :
    extract_amount_from_text ("TOTAL: $5") = none := by
  decide

/-- Claim C6 as amended: for every positive decimal amount whose plain
decimal rendering carries at least two digits (a multi-digit integer
part, or any rendering with a fractional part), running the extractor on
"TOTAL: $" followed by that rendering returns exactly the rendered
amount (thousands separators absent, value exact over ℚ). -/
theorem extract_total_roundtrip (ip fp : List Char)
    (hip : ∀ c ∈ ip, isDigitB c = true) (hfp : ∀ c ∈ fp, isDigitB c = true)
    (hne : ip ≠ []) (hlen : 2 ≤ ip.length + fp.length) :
    extract_amount_from_text (String.mk (("TOTAL: $").toList ++ renderDecimal ip fp))
      = some (decValue ip fp) := by
  obtain ⟨i0, it, rfl⟩ : ∃ a t, ip = a :: t := by
    cases ip with
    | nil => exact absurd rfl hne
    | cons a t => exact ⟨a, t, rfl⟩
  have hc0 : isDigitB i0 = true := hip i0 (by simp)
  cases fp with
  | nil =>
      have hren : renderDecimal (i0 :: it) [] = i0 :: it := by simp [renderDecimal]
      have hlen2 : 2 ≤ (i0 :: it).length := by simpa using hlen
      have hmatch : numM
          (fun r => some ((i0 :: it).take ((i0 :: it).length - r.length)))
          (i0 :: it) = some (i0 :: it) := by
        rw [numM_digits (fun r => (i0 :: it).take ((i0 :: it).length - r.length))
          (i0 :: it) hip hlen2]
        simp
      have hsearch : searchM p1At
          (('T') :: ('O') :: ('T') :: ('A') :: ('L') :: (':') :: (' ') :: ('$') :: i0 :: it)
          = some (i0 :: it) :=
        searchM_of_head _ _ _ (p1At_total_dollar i0 it hc0 hmatch)
      have hnc : ∀ c ∈ (i0 :: it), (c == ',') = false := by
        intro c hc
        exact digit_beq_false c (',') (hip c hc) (by decide)
      have hparse : parseFloatChars (stripCommas (i0 :: it))
          = some (decValue (i0 :: it) []) := by
        rw [stripCommas_of_no_comma _ hnc, parseFloatChars_int _ hip hne]
        have h0 : natOfDigits ([] : List Char) = 0 := rfl
        unfold decValue
        rw [h0]
        norm_num
      have hfinal := tryPatterns_first p1At [p2At, p3At] _ _ _ hsearch hparse
      show tryPatterns [p1At, p2At, p3At]
          ((String.mk (("TOTAL: $").toList ++ renderDecimal (i0 :: it) [])).toList)
          = some (decValue (i0 :: it) [])
      rw [show (String.mk (("TOTAL: $").toList ++ renderDecimal (i0 :: it) [])).toList
          = ("TOTAL: $").toList ++ renderDecimal (i0 :: it) [] from rfl]
      rw [hren]
      exact hfinal
  | cons f0 ft =>
      have hren : renderDecimal (i0 :: it) (f0 :: ft)
          = (i0 :: it) ++ ('.') :: f0 :: ft := by simp [renderDecimal]
      have hmatch : numM
          (fun r => some ((i0 :: (it ++ ('.') :: f0 :: ft)).take
            ((i0 :: (it ++ ('.') :: f0 :: ft)).length - r.length)))
          (i0 :: (it ++ ('.') :: f0 :: ft)) = some (i0 :: (it ++ ('.') :: f0 :: ft)) := by
        have h0 := numM_point
          (fun r => ((i0 :: it) ++ ('.') :: f0 :: ft).take
            (((i0 :: it) ++ ('.') :: f0 :: ft).length - r.length))
          (i0 :: it) (f0 :: ft) hip hfp (by simp) (by simp)
        simp only [List.cons_append] at h0
        rw [h0]
        simp
      have hsearch : searchM p1At
          (('T') :: ('O') :: ('T') :: ('A') :: ('L') :: (':') :: (' ') :: ('$')
            :: i0 :: (it ++ ('.') :: f0 :: ft))
          = some (i0 :: (it ++ ('.') :: f0 :: ft)) :=
        searchM_of_head _ _ _ (p1At_total_dollar i0 (it ++ ('.') :: f0 :: ft) hc0 hmatch)
      have hnc : ∀ c ∈ (i0 :: (it ++ ('.') :: f0 :: ft)), (c == ',') = false := by
        intro c hc
        have hdc : isDigitB c = true ∨ c = '.' := by
          simp only [List.mem_cons, List.mem_append] at hc
          rcases hc with rfl | hit | rfl | hf
          · exact Or.inl hc0
          · exact Or.inl (hip c (by simp [hit]))
          · exact Or.inr rfl
          · exact Or.inl (hfp c (List.mem_cons.mpr hf))
        rcases hdc with hd | rfl
        · exact digit_beq_false c (',') hd (by decide)
        · decide
      have hparse0 : parseFloatChars ((i0 :: it) ++ ('.') :: f0 :: ft)
          = some (decValue (i0 :: it) (f0 :: ft)) := by
        rw [parseFloatChars_point (i0 :: it) (f0 :: ft) hip hfp (by simp)]
        rfl
      have hparse : parseFloatChars (stripCommas (i0 :: (it ++ ('.') :: f0 :: ft)))
          = some (decValue (i0 :: it) (f0 :: ft)) := by
        rw [stripCommas_of_no_comma _ hnc]
        exact hparse0
      have hfinal := tryPatterns_first p1At [p2At, p3At] _ _ _ hsearch hparse
      show tryPatterns [p1At, p2At, p3At]
          ((String.mk (("TOTAL: $").toList ++ renderDecimal (i0 :: it) (f0 :: ft))).toList)
          = some (decValue (i0 :: it) (f0 :: ft))
      rw [show (String.mk (("TOTAL: $").toList
          ++ renderDecimal (i0 :: it) (f0 :: ft))).toList
          = ("TOTAL: $").toList ++ renderDecimal (i0 :: it) (f0 :: ft) from rfl]
      rw [hren]
      exact hfinal

/-- Witness for the amended claim C6: the rendering "12.34" of the amount
12.34 round-trips through the extractor, yielding exactly 12.34. -/
theorem extract_total_roundtrip_witness :
    extract_amount_from_text
        (String.mk (("TOTAL: $").toList ++ renderDecimal (['1', '2']) (['3', '4'])))
      = some ((617 : ℚ) / 50) := by
  have h := extract_total_roundtrip (['1', '2']) (['3', '4'])
    (by decide) (by decide) (by decide) (by decide)
  rw [h]
  have h1 : natOfDigits (['1', '2']) = 12 := by decide
  have h2 : natOfDigits (['3', '4']) = 34 := by decide
  unfold decValue
  rw [h1, h2]
  norm_num

/-- Claim C7: extracting the exact string "Amount Due: ₦1,250.00" yields
1250.00; pattern 1 (labelled total) finds no match, pattern 2 (bare
currency-symbol prefix) captures "1,250.00", and the comma is stripped
before parsing. -/
theorem extract_naira_amount :
    extract_amount_from_text ("Amount Due: ₦1,250.00") = some (1250 : ℚ) := by
  have hs1 : searchM p1At (("Amount Due: ₦1,250.00").toList) = none := by decide
  have hs2 : searchM p2At (("Amount Due: ₦1,250.00").toList)
      = some (("1,250.00").toList) := by decide
  have hstrip : stripCommas (("1,250.00").toList) = ("1250.00").toList := by decide
  have hparse : parseFloatChars (stripCommas (("1,250.00").toList))
      = some (1250 : ℚ) := by
    rw [hstrip]
    rw [show ("1250.00").toList = ("1250").toList ++ ('.') :: ("00").toList from rfl]
    rw [parseFloatChars_point (("1250").toList) (("00").toList)
      (by decide) (by decide) (by decide)]
    have h1 : natOfDigits (("1250").toList) = 1250 := by decide
    have h2 : natOfDigits (("00").toList) = 0 := by decide
    have h3 : (("00").toList).length = 2 := by decide
    rw [h1, h2, h3]
    norm_num
  show tryPatterns [p1At, p2At, p3At] (("Amount Due: ₦1,250.00").toList)
      = some (1250 : ℚ)
  rw [tryPatterns_skip _ _ _ hs1]
  exact tryPatterns_first _ _ _ _ _ hs2 hparse

/-- Claim C8: on text where no extraction rule matches — here
"no recognizable total here", which contains the label word "total" but
no numeric literal — the extractor returns `NotFound` (`none`) rather
than raising or returning a value. -/
theorem extract_no_recognizable_total :
    extract_amount_from_text ("no recognizable total here") = none := by
  decide

/-- Claim C10: the amount extractor is total — it is a function defined
on every input string — and whenever it returns an amount, that amount is
non-negative: every numeric pattern matches unsigned digit sequences
only, and a failed parse falls through to the next rule instead of
raising. -/
theorem extract_amount_nonneg (s : String) (q : ℚ)
    (h : extract_amount_from_text s = some q) : 0 ≤ q :=
  tryPatterns_nonneg _ _ q h

/-- Witness for claim C10: on the receipt text "TOTAL: $45.50" the
extractor returns 45.50, which is non-negative. -/
theorem extract_amount_nonneg_witness :
    extract_amount_from_text ("TOTAL: $45.50") = some ((91 : ℚ) / 2)
      ∧ (0 : ℚ) ≤ (91 : ℚ) / 2 := by
  have hs1 : searchM p1At (("TOTAL: $45.50").toList)
      = some (("45.50").toList) := by decide
  have hparse : parseFloatChars (stripCommas (("45.50").toList))
      = some ((91 : ℚ) / 2) := by
    rw [show stripCommas (("45.50").toList) = ("45.50").toList from by decide]
    rw [show ("45.50").toList = ("45").toList ++ ('.') :: ("50").toList from rfl]
    rw [parseFloatChars_point (("45").toList) (("50").toList)
      (by decide) (by decide) (by decide)]
    have h1 : natOfDigits (("45").toList) = 45 := by decide
    have h2 : natOfDigits (("50").toList) = 50 := by decide
    have h3 : (("50").toList).length = 2 := by decide
    rw [h1, h2, h3]
    norm_num
  have h455 : extract_amount_from_text ("TOTAL: $45.50") = some ((91 : ℚ) / 2) :=
    tryPatterns_first _ _ _ _ _ hs1 hparse
  exact ⟨h455, extract_amount_nonneg ("TOTAL: $45.50") ((91 : ℚ) / 2) h455⟩

/-! ## Claim C9: the sort options of the transactions page -/

/-- Claim C9 evaluated at its failing input: with the stored ledger
`[txNew, txOld]` (newest insertion first but dates out of order) and the
sort option "Date (Oldest)", the code returns the list unchanged — the
first returned transaction occurs 5 days after the second, so the result
is not ordered ascending by `occurredAt` as the claim requires. -/
theorem date_oldest_sort_is_noop :
    transactions_query [txNew, txOld] ("All") ("All") ("Date (Oldest)")
        = [txNew, txOld] ∧
      txOld.date < txNew.date := by
  constructor
  · decide
  · decide

end TrustBridge
